import Mathlib

/-!
Shallow embedding of the video-game valuation engine
(`src/services/priceLookup.ts`, valuation-engine section).

Numbers are modelled as exact rationals (`ℚ`). Dates are modelled by the
injectable quantity `soldDaysAgo = (now − soldDate)` measured in days, as a
rational; the source's `Math.floor((now - soldDate) / day)` becomes
`⌊soldDaysAgo⌋`. Strings are modelled with character-list based helpers so
that every definition evaluates inside the kernel.
-/

-- ============================================
-- STRING HELPERS (JS `toLowerCase`, `toUpperCase`, `includes`, split on /\s+/)
-- ============================================

/-- JS `String.prototype.toLowerCase` (ASCII, which covers all keywords used). -/
def lowerStr (s : String) : String := ⟨s.data.map Char.toLower⟩

/-- JS `String.prototype.toUpperCase` (ASCII). -/
def upperStr (s : String) : String := ⟨s.data.map Char.toUpper⟩

/-- Is the first character list a prefix of the second? -/
def charsPrefixOf : List Char → List Char → Bool
  | [], _ => true
  | _ :: _, [] => false
  | a :: as, b :: bs => a == b && charsPrefixOf as bs

/-- Is the first character list a contiguous sublist of the second? -/
def charsInfixOf : List Char → List Char → Bool
  | pat, [] => pat.isEmpty
  | pat, b :: rest => charsPrefixOf pat (b :: rest) || charsInfixOf pat rest

/-- JS `String.prototype.includes`: contiguous substring containment. -/
def strIncludes (s pat : String) : Bool := charsInfixOf pat.data s.data

/-- Does `s` include any of the keywords? (JS `keywords.some(kw => s.includes(kw))`). -/
def includesAny (s : String) (kws : List String) : Bool := kws.any (fun kw => strIncludes s kw)

/-- Splitter for JS `split(/\s+/)`; empty fragments are filtered away downstream
exactly as the source's `filter(w => w.length > 2)` does. -/
def splitWsAux (cs : List Char) (acc : List Char) : List String :=
  match cs with
  | [] => [⟨acc.reverse⟩]
  | c :: rest => if c.isWhitespace then ⟨acc.reverse⟩ :: splitWsAux rest [] else splitWsAux rest (c :: acc)

def splitWs (s : String) : List String := splitWsAux s.data []

-- ============================================
-- NUMERIC HELPERS (JS Math.round / Math.ceil on exact rationals)
-- ============================================

/-- JS `Math.round`: round half toward positive infinity. -/
def jsRound (x : ℚ) : ℤ := ⌊x + 1/2⌋

-- ============================================
-- TYPES
-- ============================================

inductive CondType
  | sealed
  | cib
  | loose
deriving DecidableEq

def condTypeStr : CondType → String
  | .sealed => "sealed"
  | .cib => "cib"
  | .loose => "loose"

/-- `MarketComparable` from `types/asset.ts`; `soldDaysAgo` replaces the ISO
date string `soldDate`, measuring the (injectable) age of the sale in days. -/
structure MarketComparable where
  name : String
  soldPrice : ℚ
  soldDaysAgo : ℚ
  source : String := ""
  condition : Option String := none
deriving DecidableEq

structure AssetMetadata where
  name : String
  platform : Option String := none
  region : Option String := none
  conditionType : Option CondType := none
  gradingCompany : Option String := none
  grade : Option ℚ := none
  sealRating : Option String := none
deriving DecidableEq

structure ScoredComparable extends MarketComparable where
  similarityScore : ℤ
  timeWeight : ℚ
  finalWeight : ℚ
  adjustedPrice : ℚ
deriving DecidableEq

structure PriceAdjustment where
  type : String
  factor : ℚ
  reason : String
deriving DecidableEq

structure PriceRange where
  low : ℤ
  median : ℤ
  high : ℤ
deriving DecidableEq

structure RollingAverage where
  days30 : Option ℚ
  days90 : Option ℚ
  days180 : Option ℚ
deriving DecidableEq

inductive Confidence
  | high
  | medium
  | low
deriving DecidableEq

structure ValuationResult where
  estimatedValue : ℤ
  confidence : Confidence
  confidenceScore : ℤ
  priceRange : PriceRange
  rollingAverage : RollingAverage
  comparablesUsed : ℕ
  adjustments : List PriceAdjustment
  methodology : String
deriving DecidableEq

-- ============================================
-- CONFIGURATION
-- ============================================

/-- `TIME_DECAY_CONFIG`, already in the ascending day order the source produces
by sorting the parsed keys. -/
def TIME_DECAY_CONFIG : List (ℤ × ℚ) :=
  [(0, 1), (7, 0.95), (14, 0.9), (30, 0.85), (60, 0.7), (90, 0.55), (180, 0.35), (365, 0.15)]

/-- `GRADE_MULTIPLIERS`, in the descending-threshold order `getGradeMultiplier`
produces by sorting the parsed keys. -/
def GRADE_MULTIPLIERS : List (ℚ × ℚ) :=
  [(10, 8), (9.8, 5), (9.6, 3), (9.4, 2), (9.2, 1.6), (9, 1.3),
   (8.5, 1.1), (8, 1), (7.5, 0.8), (7, 0.6), (6, 0.4), (5, 0.3)]

-- ============================================
-- CONDITION TYPE FILTERING (`filterByConditionType`)
-- ============================================

def conditionKeywords : CondType → List String
  | .sealed => ["sealed", "new", "factory sealed", "brand new", "mint sealed", "new/sealed"]
  | .cib => ["cib", "complete", "complete in box", "with box", "with manual", "box and manual"]
  | .loose => ["loose", "cart only", "cartridge only", "disc only", "game only", "no box", "no manual"]

def conditionFieldMatch : CondType → List String
  | .sealed => ["new", "sealed", "new/sealed", "factory sealed"]
  | .cib => ["cib", "complete", "very good", "good"]
  | .loose => ["loose", "acceptable", "cart", "disc"]

/-- Name-based part of the filter predicate (the source's checks after the
condition-field checks fall through). -/
def keepByName (target : CondType) (nameLower : String) : Bool :=
  if includesAny nameLower (conditionKeywords target) then true
  else if target ≠ CondType.sealed ∧
      (strIncludes nameLower "sealed" ∨ strIncludes nameLower "factory new") then false
  else if target ≠ CondType.loose ∧
      (strIncludes nameLower "loose" ∨ strIncludes nameLower "cart only" ∨
       strIncludes nameLower "disc only") then false
  else if target ≠ CondType.cib ∧
      (strIncludes nameLower "cib" ∨ strIncludes nameLower "complete in box") then false
  else true

/-- Per-comparable predicate of `filterByConditionType`. -/
def keepForCondition (target : CondType) (comp : MarketComparable) : Bool :=
  let nameLower := lowerStr comp.name
  let conditionLower := lowerStr (comp.condition.getD "")
  if conditionLower ≠ "" then
    if includesAny conditionLower (conditionFieldMatch target) then true
    else if target ≠ CondType.sealed ∧
        (strIncludes conditionLower "sealed" ∨ strIncludes conditionLower "new") then false
    else if target ≠ CondType.loose ∧ strIncludes conditionLower "loose" then false
    else keepByName target nameLower
  else keepByName target nameLower

def filterByConditionType (comparables : List MarketComparable) : Option CondType → List MarketComparable
  | none => comparables
  | some target => comparables.filter (fun comp => keepForCondition target comp)

-- ============================================
-- SIMILARITY SCORING (`scoreComparable` and helpers)
-- ============================================

/-- Tokenization used by `scoreNameSimilarity`: split on whitespace, keep words
longer than 2 characters, dedup (the JS `Set` keeps first occurrences). -/
def nameWords (s : String) : List String := ((splitWs s).filter (fun w => 2 < w.length)).dedup

def scoreNameSimilarity (compName targetName : String) : ℚ :=
  let compWords := nameWords compName
  let targetWords := nameWords targetName
  if targetWords.length = 0 then 0
  else
    let matchCount : ℚ :=
      (targetWords.map (fun word =>
        if word ∈ compWords then (1 : ℚ)
        else if compWords.any (fun compWord =>
            strIncludes compWord word || strIncludes word compWord) then (1/2 : ℚ)
        else 0)).sum
    matchCount / (targetWords.length : ℚ)

def conditionMap : CondType → List String
  | .sealed => ["sealed", "new", "factory", "wata", "vga"]
  | .cib => ["cib", "complete", "box"]
  | .loose => ["loose", "cart", "disc only", "cartridge"]

def regionKeywords : String → List String
  | "NTSC" => ["ntsc", "usa", "us version"]
  | "PAL" => ["pal", "europe", "uk", "eu"]
  | "NTSC-J" => ["ntsc-j", "japan", "jp", "japanese"]
  | _ => []

/-- Models the JS number-to-string conversion `String(target.grade)` for the
grade values of this domain (integers and one-decimal grades). -/
def gradeString (g : ℚ) : String :=
  if g.den = 1 then toString g.num
  else if (g * 10).den = 1 then s!"{(g * 10).num / 10}.{(g * 10).num % 10}"
  else toString g.num ++ "/" ++ toString g.den

/-- Platform factor of `scoreVideoGameAttributes`: `(score, factors)` contribution. -/
def platformPart (compName : String) (target : AssetMetadata) : ℚ × ℚ :=
  match target.platform with
  | some p =>
    if p = "" then (0, 0)
    else if strIncludes compName (lowerStr p) then (3, 3) else (0, 3)
  | none => (0, 0)

/-- Condition-type factor of `scoreVideoGameAttributes`. -/
def conditionPart (compName compCondition : String) (target : AssetMetadata) : ℚ × ℚ :=
  match target.conditionType with
  | some ct =>
    if (conditionMap ct).any (fun kw => strIncludes compName kw || strIncludes compCondition kw)
    then (2, 2) else (0, 2)
  | none => (0, 0)

/-- Grading factor of `scoreVideoGameAttributes`. -/
def gradingPart (compName compCondition : String) (target : AssetMetadata) : ℚ × ℚ :=
  match target.gradingCompany with
  | some gc =>
    if gc = "" ∨ gc = "raw" then (0, 0)
    else if strIncludes compName (lowerStr gc) ∨ strIncludes compCondition (lowerStr gc) then
      let bonus : ℚ :=
        match target.grade with
        | some g =>
          if g ≠ 0 ∧ (strIncludes compName (gradeString g) ∨ strIncludes compCondition (gradeString g))
          then 1/2 else 0
        | none => 0
      (3/2 + bonus, 2)
    else (0, 2)
  | none => (0, 0)

/-- Region factor of `scoreVideoGameAttributes`. -/
def regionPart (compName : String) (target : AssetMetadata) : ℚ × ℚ :=
  match target.region with
  | some r =>
    if r = "" then (0, 0)
    else if (regionKeywords r).any (fun kw => strIncludes compName kw) then (1, 1) else (0, 1)
  | none => (0, 0)

def scoreVideoGameAttributes (comparable : MarketComparable) (target : AssetMetadata) : ℚ :=
  let compName := lowerStr comparable.name
  let compCondition := lowerStr (comparable.condition.getD "")
  let p1 := platformPart compName target
  let p2 := conditionPart compName compCondition target
  let p3 := gradingPart compName compCondition target
  let p4 := regionPart compName target
  let score := p1.1 + p2.1 + p3.1 + p4.1
  let factors := p1.2 + p2.2 + p3.2 + p4.2
  if 0 < factors then score / factors else 1/2

-- ============================================
-- TIME WEIGHTING (`calculateTimeWeight`)
-- ============================================

/-- The source's descending scan over the sorted brackets, phrased as an
ascending recursion: find the last bracket at or below `daysDiff` and
interpolate toward the next one. -/
def timeWeightAux (daysDiff : ℤ) : List (ℤ × ℚ) → ℚ
  | [] => 1
  | [(days, weight)] => if days ≤ daysDiff then weight else 1
  | (lo, wlo) :: (hi, whi) :: rest =>
    if hi ≤ daysDiff then timeWeightAux daysDiff ((hi, whi) :: rest)
    else if lo ≤ daysDiff then
      wlo - (wlo - whi) * (((daysDiff : ℚ) - (lo : ℚ)) / ((hi : ℚ) - (lo : ℚ)))
    else 1

def calculateTimeWeight (daysDiff : ℤ) : ℚ := timeWeightAux daysDiff TIME_DECAY_CONFIG

def scoreComparable (comparable : MarketComparable) (target : AssetMetadata) : ScoredComparable :=
  let similarityScore : ℚ :=
    scoreNameSimilarity (lowerStr comparable.name) (lowerStr target.name) * 40
      + scoreVideoGameAttributes comparable target * 60
  let maxScore : ℚ := 40 + 60
  let normalizedScore := jsRound (similarityScore / maxScore * 100)
  let timeWeight := calculateTimeWeight ⌊comparable.soldDaysAgo⌋
  let finalWeight := ((normalizedScore : ℚ) / 100) * timeWeight
  { comparable with
    similarityScore := normalizedScore
    timeWeight := timeWeight
    finalWeight := finalWeight
    adjustedPrice := comparable.soldPrice }

-- ============================================
-- STATISTICAL ANALYSIS (`removeOutliers`, rolling averages, weighted average)
-- ============================================

/-- The `mean` computed inside `removeOutliers`. -/
def meanPrice (comparables : List ScoredComparable) : ℚ :=
  let prices := comparables.map (fun c => c.adjustedPrice)
  prices.sum / (prices.length : ℚ)

/-- The population `variance` computed inside `removeOutliers`
(`stdDev` in the source is its square root). -/
def variancePrice (comparables : List ScoredComparable) : ℚ :=
  let prices := comparables.map (fun c => c.adjustedPrice)
  (prices.map (fun p => (p - meanPrice comparables) ^ 2)).sum / (prices.length : ℚ)

/-- The source keeps `mean − 2·stdDev ≤ price ≤ mean + 2·stdDev` with
`stdDev = √variance`; over exact arithmetic this two-sided bound is
equivalently `(price − mean)² ≤ 4·variance`, which is how it is phrased here
to stay inside `ℚ`. -/
def removeOutliers (comparables : List ScoredComparable) : List ScoredComparable :=
  if comparables.length < 4 then comparables
  else
    let mean := meanPrice comparables
    let variance := variancePrice comparables
    comparables.filter (fun c => (c.adjustedPrice - mean) ^ 2 ≤ 4 * variance)

/-- Inner helper `calcWeightedAvg` of `calculateRollingAverages`. -/
def calcWeightedAvg (items : List ScoredComparable) : Option ℚ :=
  if items.length = 0 then none
  else
    let totalWeight := (items.map (fun c => c.finalWeight)).sum
    if totalWeight = 0 then none
    else some ((items.map (fun c => c.adjustedPrice * c.finalWeight)).sum / totalWeight)

/-- Inner helper `filterByDays`: sales within the trailing window. -/
def filterByDays (comparables : List ScoredComparable) (days : ℚ) : List ScoredComparable :=
  comparables.filter (fun c => c.soldDaysAgo ≤ days)

def calculateRollingAverages (comparables : List ScoredComparable) : RollingAverage :=
  { days30 := calcWeightedAvg (filterByDays comparables 30)
    days90 := calcWeightedAvg (filterByDays comparables 90)
    days180 := calcWeightedAvg (filterByDays comparables 180) }

def getGradeMultiplier (grade : ℚ) : ℚ :=
  match GRADE_MULTIPLIERS.find? (fun gw => gw.1 ≤ grade) with
  | some gw => gw.2
  | none => 0.3

/-- Base weighted average of `calculateWeightedAverage` before any grade
adjustment (`totalWeight > 0 ? weighted : unweighted mean`). -/
def baseWeightedAverage (comparables : List ScoredComparable) : ℚ :=
  let totalWeight := (comparables.map (fun c => c.finalWeight)).sum
  if 0 < totalWeight then
    (comparables.map (fun c => c.adjustedPrice * c.finalWeight)).sum / totalWeight
  else
    (comparables.map (fun c => c.adjustedPrice)).sum / (comparables.length : ℚ)

def calculateWeightedAverage (comparables : List ScoredComparable) (metadata : AssetMetadata) :
    ℚ × List PriceAdjustment :=
  let weightedAverage := baseWeightedAverage comparables
  match metadata.grade, metadata.gradingCompany with
  | some grade, some gc =>
    if gc ≠ "" ∧ gc ≠ "raw" then
      let gradeMultiplier := getGradeMultiplier grade
      let baseGradeMultiplier := getGradeMultiplier (17/2)
      if gradeMultiplier ≠ baseGradeMultiplier then
        let adjustment := gradeMultiplier / baseGradeMultiplier
        (weightedAverage * adjustment,
         [{ type := "grade", factor := adjustment,
            reason := s!"Adjusted for {gc} {gradeString grade} grade" }])
      else (weightedAverage, [])
    else (weightedAverage, [])
  | _, _ => (weightedAverage, [])

def percentile (arr : List ℚ) (p : ℚ) : ℚ :=
  let index := ⌈p / 100 * (arr.length : ℚ)⌉ - 1
  arr.getD (max 0 (min index ((arr.length : ℤ) - 1))).toNat 0

def calculatePriceRange (comparables : List ScoredComparable) : PriceRange :=
  let prices := (comparables.map (fun c => c.adjustedPrice)).mergeSort (fun a b => a ≤ b)
  { low := jsRound (percentile prices 25)
    median := jsRound (percentile prices 50)
    high := jsRound (percentile prices 75) }

-- ============================================
-- CONFIDENCE CALCULATION (`calculateConfidence`; the source's second
-- parameter `totalFound` is unused there and omitted here)
-- ============================================

def calculateConfidence (comparables : List ScoredComparable) : Confidence × ℤ :=
  let count := comparables.length
  let avgSimilarity : ℚ := (comparables.map (fun c => (c.similarityScore : ℚ))).sum / (count : ℚ)
  let avgTimeWeight : ℚ := (comparables.map (fun c => c.timeWeight)).sum / (count : ℚ)
  let confidenceScore : ℚ :=
    min ((count : ℚ) * 8) 40 + avgSimilarity / 100 * 40 + avgTimeWeight * 20
  let confidence :=
    if 5 ≤ count ∧ 70 ≤ avgSimilarity then Confidence.high
    else if 3 ≤ count ∧ 50 ≤ avgSimilarity then Confidence.medium
    else Confidence.low
  (confidence, jsRound confidenceScore)

-- ============================================
-- HELPERS (`buildMethodology`, `createEmptyResult`) AND ORCHESTRATOR
-- ============================================

def buildMethodology (usedCount totalCount : ℕ) (adjustments : List PriceAdjustment)
    (conditionType : Option CondType) : String :=
  let head :=
    match conditionType with
    | some ct =>
      let ctUpper := upperStr (condTypeStr ct)
      s!"Based on {usedCount} {ctUpper} sales"
    | none => s!"Based on {usedCount} comparable sales"
  let excluded :=
    if usedCount < totalCount then
      let diff := totalCount - usedCount
      [s!"({diff} outliers excluded)"]
    else []
  let adj :=
    if adjustments.length ≠ 0 then
      let adjNames := String.intercalate ", " (adjustments.map (fun a => a.type))
      [s!"with {adjNames} adjustments applied"]
    else []
  String.intercalate " " ([head] ++ excluded ++ adj ++ ["using time-weighted rolling average"])

def createEmptyResult (reason : String) : ValuationResult :=
  { estimatedValue := 0
    confidence := Confidence.low
    confidenceScore := 0
    priceRange := { low := 0, median := 0, high := 0 }
    rollingAverage := { days30 := none, days90 := none, days180 := none }
    comparablesUsed := 0
    adjustments := []
    methodology := reason }

/-- Label used in the second empty-result message
(`metadata.conditionType?.toUpperCase() || 'matching'`). -/
def condLabel (metadata : AssetMetadata) : String :=
  match metadata.conditionType with
  | some ct => upperStr (condTypeStr ct)
  | none => "matching"

/-- Steps 1 and 2 of the orchestrator: score the condition-filtered comparables
and keep those with `similarityScore ≥ 20`. -/
def relevantComparables (metadata : AssetMetadata) (comparables : List MarketComparable) :
    List ScoredComparable :=
  ((filterByConditionType comparables metadata.conditionType).map
    (fun comp => scoreComparable comp metadata)).filter
    (fun c => 20 ≤ c.similarityScore)

def calculateValuation (metadata : AssetMetadata) (comparables : List MarketComparable) :
    ValuationResult :=
  if comparables.length = 0 then
    createEmptyResult "No comparable sales data available"
  else if (filterByConditionType comparables metadata.conditionType).length = 0 then
    createEmptyResult (s!"No {condLabel metadata} condition sales found")
  else if (relevantComparables metadata comparables).length = 0 then
    createEmptyResult "No sufficiently similar comparables found"
  else
    let withoutOutliers := removeOutliers (relevantComparables metadata comparables)
    let rollingAverages := calculateRollingAverages withoutOutliers
    let wa := calculateWeightedAverage withoutOutliers metadata
    let priceRange := calculatePriceRange withoutOutliers
    let conf := calculateConfidence withoutOutliers
    let methodology := buildMethodology withoutOutliers.length
      (filterByConditionType comparables metadata.conditionType).length wa.2 metadata.conditionType
    { estimatedValue := jsRound wa.1
      confidence := conf.1
      confidenceScore := conf.2
      priceRange := priceRange
      rollingAverage := rollingAverages
      comparablesUsed := withoutOutliers.length
      adjustments := wa.2
      methodology := methodology }

-- ============================================
-- GENERIC LIST-SUM LEMMAS
-- ============================================

lemma sum_map_nonneg {α : Type} (l : List α) (f : α → ℚ) (h : ∀ x ∈ l, 0 ≤ f x) :
    0 ≤ (l.map f).sum := by
  induction l with
  | nil => simp
  | cons a t ih =>
    simp only [List.map_cons, List.sum_cons]
    have ha := h a (by simp)
    have ht := ih (fun x hx => h x (by simp [hx]))
    linarith

lemma sum_map_const_of {α : Type} (l : List α) (f : α → ℚ) (c : ℚ) (h : ∀ x ∈ l, f x = c) :
    (l.map f).sum = (l.length : ℚ) * c := by
  induction l with
  | nil => simp
  | cons a t ih =>
    simp only [List.map_cons, List.sum_cons, List.length_cons]
    rw [h a (by simp), ih (fun x hx => h x (by simp [hx]))]
    push_cast
    ring

lemma length_mul_le_sum_map {α : Type} (l : List α) (f : α → ℚ) (b : ℚ)
    (h : ∀ x ∈ l, b ≤ f x) : (l.length : ℚ) * b ≤ (l.map f).sum := by
  induction l with
  | nil => simp
  | cons a t ih =>
    simp only [List.map_cons, List.sum_cons, List.length_cons]
    have ha := h a (by simp)
    have ht := ih (fun x hx => h x (by simp [hx]))
    push_cast
    linarith

lemma sum_map_le_length_mul {α : Type} (l : List α) (f : α → ℚ) (b : ℚ)
    (h : ∀ x ∈ l, f x ≤ b) : (l.map f).sum ≤ (l.length : ℚ) * b := by
  induction l with
  | nil => simp
  | cons a t ih =>
    simp only [List.map_cons, List.sum_cons, List.length_cons]
    have ha := h a (by simp)
    have ht := ih (fun x hx => h x (by simp [hx]))
    push_cast
    linarith

lemma forall_eq_zero_of_sum_map_eq_zero {α : Type} (l : List α) (f : α → ℚ)
    (h0 : ∀ x ∈ l, 0 ≤ f x) (hs : (l.map f).sum = 0) : ∀ x ∈ l, f x = 0 := by
  induction l with
  | nil => simp
  | cons a t ih =>
    simp only [List.map_cons, List.sum_cons] at hs
    have ha := h0 a (by simp)
    have ht : 0 ≤ (t.map f).sum := sum_map_nonneg t f (fun x hx => h0 x (by simp [hx]))
    intro x hx
    rcases List.mem_cons.mp hx with rfl | hx
    · linarith
    · exact ih (fun y hy => h0 y (by simp [hy])) (by linarith) x hx

lemma sum_map_filter_add_not {α : Type} (p : α → Bool) (f : α → ℚ) (l : List α) :
    ((l.filter p).map f).sum + ((l.filter (fun x => !(p x))).map f).sum = (l.map f).sum := by
  induction l with
  | nil => simp
  | cons a t ih =>
    by_cases h : p a <;>
      simp only [List.filter_cons, h, Bool.not_true, Bool.not_false, if_pos, if_neg,
        Bool.false_eq_true, not_false_eq_true, List.map_cons, List.sum_cons, ite_true, ite_false] <;>
      linarith

lemma length_filter_add_not {α : Type} (p : α → Bool) (l : List α) :
    (l.filter p).length + (l.filter (fun x => !(p x))).length = l.length := by
  induction l with
  | nil => simp
  | cons a t ih =>
    by_cases h : p a <;>
      simp only [List.filter_cons, h, Bool.not_true, Bool.not_false, List.length_cons,
        Bool.false_eq_true, not_false_eq_true, ite_true, ite_false] <;>
      omega

-- ============================================
-- OUTLIER-FILTER ANALYSIS (Chebyshev-style bound)
-- ============================================

lemma removeOutliers_of_short (l : List ScoredComparable) (h : l.length < 4) :
    removeOutliers l = l := by
  simp [removeOutliers, h]

lemma removeOutliers_of_long (l : List ScoredComparable) (h : ¬ l.length < 4) :
    removeOutliers l
      = l.filter (fun c => (c.adjustedPrice - meanPrice l) ^ 2 ≤ 4 * variancePrice l) := by
  simp [removeOutliers, h]

lemma variancePrice_eq (l : List ScoredComparable) :
    variancePrice l
      = (l.map (fun c => (c.adjustedPrice - meanPrice l) ^ 2)).sum / (l.length : ℚ) := by
  simp only [variancePrice, List.map_map, List.length_map]
  rfl

lemma variancePrice_nonneg (l : List ScoredComparable) : 0 ≤ variancePrice l := by
  rw [variancePrice_eq]
  exact div_nonneg (sum_map_nonneg _ _ (fun x _ => sq_nonneg _)) (by positivity)

lemma mem_removeOutliers (l : List ScoredComparable) (c : ScoredComparable)
    (h : c ∈ removeOutliers l) : c ∈ l := by
  by_cases hlt : l.length < 4
  · rwa [removeOutliers_of_short l hlt] at h
  · rw [removeOutliers_of_long l hlt] at h
    exact (List.mem_filter.mp h).1

lemma chebyshev_keep (l : List ScoredComparable) :
    3 * l.length ≤ 4 * (removeOutliers l).length := by
  by_cases hlt : l.length < 4
  · rw [removeOutliers_of_short l hlt]
    omega
  · rw [removeOutliers_of_long l hlt]
    set f : ScoredComparable → ℚ := fun c => (c.adjustedPrice - meanPrice l) ^ 2 with hf
    set p : ScoredComparable → Bool := fun c => decide (f c ≤ 4 * variancePrice l) with hp
    have hn : (4 : ℕ) ≤ l.length := by omega
    have hnq : (0 : ℚ) < (l.length : ℚ) := by positivity
    have hS : (l.map f).sum = (l.length : ℚ) * variancePrice l := by
      have := variancePrice_eq l
      field_simp at this
      linarith [this]
    have hkept_nonneg : 0 ≤ ((l.filter p).map f).sum :=
      sum_map_nonneg _ _ (fun x _ => sq_nonneg _)
    have hremoved_lb : ∀ x ∈ l.filter (fun c => !(p c)), 4 * variancePrice l ≤ f x := by
      intro x hx
      have hmem := List.mem_filter.mp hx
      have : ¬ (f x ≤ 4 * variancePrice l) := by
        simpa [hp] using hmem.2
      linarith [lt_of_not_le this]
    have hsum_split := sum_map_filter_add_not p f l
    have hlen_split := length_filter_add_not p l
    have hk_lb := length_mul_le_sum_map (l.filter (fun c => !(p c))) f (4 * variancePrice l)
      hremoved_lb
    have hv_nonneg := variancePrice_nonneg l
    rcases eq_or_lt_of_le hv_nonneg with hv0 | hvpos
    · -- zero variance: every deviation is zero, nothing is removed
      have hall : ∀ x ∈ l, f x = 0 := by
        apply forall_eq_zero_of_sum_map_eq_zero l f (fun x _ => sq_nonneg _)
        rw [hS, ← hv0]
        ring
      have : l.filter p = l := by
        rw [List.filter_eq_self]
        intro a ha
        simp only [hp, decide_eq_true_eq]
        rw [hall a ha, ← hv0]
        norm_num
      rw [this]
      omega
    · -- positive variance: at most a quarter of the items can be beyond 2σ
      have hkq : ((l.filter (fun c => !(p c))).length : ℚ) * (4 * variancePrice l)
          ≤ (l.length : ℚ) * variancePrice l := by
        calc ((l.filter (fun c => !(p c))).length : ℚ) * (4 * variancePrice l)
            ≤ ((l.filter (fun c => !(p c))).map f).sum := hk_lb
          _ ≤ (l.map f).sum := by linarith
          _ = (l.length : ℚ) * variancePrice l := hS
      have h4k : 4 * ((l.filter (fun c => !(p c))).length : ℚ) ≤ (l.length : ℚ) := by
        have := (mul_le_mul_right hvpos).mp (by linarith : (4 * ((l.filter (fun c => !(p c))).length : ℚ)) * variancePrice l ≤ (l.length : ℚ) * variancePrice l)
        linarith
      have h4k' : 4 * (l.filter (fun c => !(p c))).length ≤ l.length := by
        exact_mod_cast h4k
      omega

lemma removeOutliers_ne_nil (l : List ScoredComparable) (h : l ≠ []) :
    removeOutliers l ≠ [] := by
  have hcheb := chebyshev_keep l
  have hlen : 0 < l.length := List.length_pos.mpr h
  have : 0 < (removeOutliers l).length := by omega
  exact List.ne_nil_of_length_pos this

/-- C9: on a non-empty input `removeOutliers` always returns a non-empty list,
and for `n ≥ 4` the `mean ± 2·stddev` gate removes at most `⌊n/4⌋` items,
leaving at least 3 comparables, which keeps the count divisions in
`calculateConfidence` and the index selection in `calculatePriceRange`
well-defined on the orchestrated path. -/
theorem removeOutliers_keeps_three_quarters :
    (∀ l : List ScoredComparable, l ≠ [] → removeOutliers l ≠ [])
    ∧ (∀ l : List ScoredComparable, 4 ≤ l.length →
        l.length - (removeOutliers l).length ≤ l.length / 4
        ∧ 3 ≤ (removeOutliers l).length) := by
  constructor
  · exact removeOutliers_ne_nil
  · intro l h4
    have hcheb := chebyshev_keep l
    have hle : (removeOutliers l).length ≤ l.length := by
      by_cases hlt : l.length < 4
      · rw [removeOutliers_of_short l hlt]
      · rw [removeOutliers_of_long l hlt]
        exact List.length_filter_le _ _
    omega

/-- Concrete scored comparables used by witnesses. -/
def w9a : ScoredComparable :=
  { name := "game a", soldPrice := 10, soldDaysAgo := 0,
    similarityScore := 70, timeWeight := 1, finalWeight := 0.7, adjustedPrice := 10 }

def w9b : ScoredComparable :=
  { name := "game b", soldPrice := 12, soldDaysAgo := 0,
    similarityScore := 70, timeWeight := 1, finalWeight := 0.7, adjustedPrice := 12 }

/-- Witness for C9 at a concrete list of four scored comparables. -/
theorem removeOutliers_keeps_three_quarters_witness :
    removeOutliers [w9a, w9a, w9a, w9b] ≠ []
    ∧ ([w9a, w9a, w9a, w9b].length - (removeOutliers [w9a, w9a, w9a, w9b]).length
        ≤ [w9a, w9a, w9a, w9b].length / 4
      ∧ 3 ≤ (removeOutliers [w9a, w9a, w9a, w9b]).length) :=
  ⟨removeOutliers_keeps_three_quarters.1 _ (by decide!),
   removeOutliers_keeps_three_quarters.2 _ (by decide!)⟩

-- ============================================
-- ORCHESTRATOR UNFOLDING LEMMAS
-- ============================================

lemma filterByConditionType_nil (o : Option CondType) : filterByConditionType [] o = [] := by
  cases o <;> rfl

lemma relevantComparables_nil (m : AssetMetadata) : relevantComparables m [] = [] := by
  simp [relevantComparables, filterByConditionType_nil]

lemma relevantComparables_length_le (m : AssetMetadata) (comps : List MarketComparable) :
    (relevantComparables m comps).length ≤ (filterByConditionType comps m.conditionType).length := by
  calc (relevantComparables m comps).length
      ≤ ((filterByConditionType comps m.conditionType).map
          (fun comp => scoreComparable comp m)).length := List.length_filter_le _ _
    _ = _ := List.length_map _ _

lemma calculateValuation_eq_main (m : AssetMetadata) (comps : List MarketComparable)
    (h : relevantComparables m comps ≠ []) :
    calculateValuation m comps =
      { estimatedValue := jsRound
          (calculateWeightedAverage (removeOutliers (relevantComparables m comps)) m).1
        confidence := (calculateConfidence (removeOutliers (relevantComparables m comps))).1
        confidenceScore := (calculateConfidence (removeOutliers (relevantComparables m comps))).2
        priceRange := calculatePriceRange (removeOutliers (relevantComparables m comps))
        rollingAverage := calculateRollingAverages (removeOutliers (relevantComparables m comps))
        comparablesUsed := (removeOutliers (relevantComparables m comps)).length
        adjustments := (calculateWeightedAverage (removeOutliers (relevantComparables m comps)) m).2
        methodology := buildMethodology (removeOutliers (relevantComparables m comps)).length
          (filterByConditionType comps m.conditionType).length
          (calculateWeightedAverage (removeOutliers (relevantComparables m comps)) m).2
          m.conditionType } := by
  have h3 : ¬ (relevantComparables m comps).length = 0 := by
    simpa [List.length_eq_zero] using h
  have h2 : ¬ (filterByConditionType comps m.conditionType).length = 0 := by
    have := relevantComparables_length_le m comps
    omega
  have h1 : ¬ comps.length = 0 := by
    intro h0
    have h0' : comps = [] := List.length_eq_zero.mp h0
    subst h0'
    exact h (relevantComparables_nil m)
  simp only [calculateValuation, if_neg h1, if_neg h2, if_neg h3]

lemma calculateValuation_confidence_eq (m : AssetMetadata) (comps : List MarketComparable)
    (h : relevantComparables m comps ≠ []) :
    (calculateValuation m comps).confidence
      = (calculateConfidence (removeOutliers (relevantComparables m comps))).1 := by
  rw [calculateValuation_eq_main m comps h]

lemma calculateValuation_used_eq (m : AssetMetadata) (comps : List MarketComparable)
    (h : relevantComparables m comps ≠ []) :
    (calculateValuation m comps).comparablesUsed
      = (removeOutliers (relevantComparables m comps)).length := by
  rw [calculateValuation_eq_main m comps h]

-- ============================================
-- CONFIDENCE TIER
-- ============================================

lemma calculateConfidence_high (s : List ScoredComparable) (h5 : 5 ≤ s.length)
    (hsim : ∀ c ∈ s, 80 ≤ c.similarityScore) :
    (calculateConfidence s).1 = Confidence.high := by
  have hlen : 0 < s.length := by omega
  have hpos : (0 : ℚ) < (s.length : ℚ) := by exact_mod_cast hlen
  have hsum : (s.length : ℚ) * 80 ≤ (s.map (fun c => (c.similarityScore : ℚ))).sum :=
    length_mul_le_sum_map _ _ _ (fun c hc => by exact_mod_cast hsim c hc)
  have havg : (70 : ℚ) ≤ (s.map (fun c => (c.similarityScore : ℚ))).sum / (s.length : ℚ) := by
    rw [le_div_iff hpos]
    linarith
  simp only [calculateConfidence]
  rw [if_pos ⟨h5, havg⟩]

/-- C2: whenever exactly 6 scored comparables enter outlier rejection, each with
similarity at least 80 and sold within the last 7 days, the returned confidence
tier is `high`: the outlier gate keeps at least 5 of them and their average
similarity stays at least 80 ≥ 70. -/
theorem sixSimilarRecent_yields_high (m : AssetMetadata) (comps : List MarketComparable)
    (h6 : (relevantComparables m comps).length = 6)
    (hsim : ∀ c ∈ relevantComparables m comps, 80 ≤ c.similarityScore)
    (hweek : ∀ c ∈ relevantComparables m comps, c.soldDaysAgo ≤ 7) :
    (calculateValuation m comps).confidence = Confidence.high := by
  have hne : relevantComparables m comps ≠ [] := by
    intro h0
    rw [h0] at h6
    simp at h6
  rw [calculateValuation_confidence_eq m comps hne]
  have hcheb := chebyshev_keep (relevantComparables m comps)
  rw [h6] at hcheb
  apply calculateConfidence_high
  · omega
  · intro c hc
    exact hsim c (mem_removeOutliers _ _ hc)

def w2meta : AssetMetadata := { name := "mario nes", platform := some "nes" }

def w2comp : MarketComparable := { name := "mario nes", soldPrice := 50, soldDaysAgo := 1 }

/-- Witness for C2 at six identical highly-similar week-old comparables. -/
theorem sixSimilarRecent_yields_high_witness :
    (calculateValuation w2meta (List.replicate 6 w2comp)).confidence = Confidence.high :=
  sixSimilarRecent_yields_high w2meta (List.replicate 6 w2comp)
    (by decide!) (by decide!) (by decide!)

-- ============================================
-- EMPTY-RESULT CASES
-- ============================================

/-- C8: `calculateValuation` is a total function of its inputs (it cannot
throw), returns the terminal `createEmptyResult` exactly in the three empty
cases (no comparables, none surviving the condition filter, none surviving the
similarity ≥ 20 filter), and in every other case produces a result that used at
least one comparable. -/
theorem valuation_empty_cases (m : AssetMetadata) (comps : List MarketComparable) :
    (comps = [] → calculateValuation m comps
        = createEmptyResult "No comparable sales data available")
    ∧ (comps ≠ [] → filterByConditionType comps m.conditionType = [] →
        calculateValuation m comps
          = createEmptyResult (s!"No {condLabel m} condition sales found"))
    ∧ (filterByConditionType comps m.conditionType ≠ [] →
        relevantComparables m comps = [] →
        calculateValuation m comps
          = createEmptyResult "No sufficiently similar comparables found")
    ∧ (relevantComparables m comps ≠ [] →
        1 ≤ (calculateValuation m comps).comparablesUsed) := by
  refine ⟨?_, ?_, ?_, ?_⟩
  · rintro rfl
    simp [calculateValuation]
  · intro h1 h2
    have hl1 : ¬ comps.length = 0 := fun h => h1 (List.length_eq_zero.mp h)
    have hl2 : (filterByConditionType comps m.conditionType).length = 0 := by
      rw [h2]
      rfl
    simp only [calculateValuation, if_neg hl1, if_pos hl2]
  · intro h2 h3
    have hl1 : ¬ comps.length = 0 := by
      intro h0
      have h0' : comps = [] := List.length_eq_zero.mp h0
      subst h0'
      exact h2 (filterByConditionType_nil _)
    have hl2 : ¬ (filterByConditionType comps m.conditionType).length = 0 := by
      intro h0
      exact h2 (List.length_eq_zero.mp h0)
    have hl3 : (relevantComparables m comps).length = 0 := by
      rw [h3]
      rfl
    simp only [calculateValuation, if_neg hl1, if_neg hl2, if_pos hl3]
  · intro h
    rw [calculateValuation_used_eq m comps h]
    have := removeOutliers_ne_nil _ h
    have := List.length_pos.mpr this
    omega

/-- Witness for C8: the empty-input case and a successful one-comparable case. -/
theorem valuation_empty_cases_witness :
    calculateValuation w2meta [] = createEmptyResult "No comparable sales data available"
    ∧ 1 ≤ (calculateValuation w2meta [w2comp]).comparablesUsed :=
  ⟨(valuation_empty_cases w2meta []).1 rfl,
   (valuation_empty_cases w2meta [w2comp]).2.2.2 (by decide!)⟩

-- ============================================
-- TIME-WEIGHT ANALYSIS
-- ============================================

/-- Modelled from the spec (§4.3): the piecewise-linear interpolation through
the anchor pairs `0→1.00, 7→0.95, 14→0.90, 30→0.85, 60→0.70, 90→0.55,
180→0.35, 365→0.15`, clamped to the last anchor's weight beyond 365 days. -/
def specRecencyWeight (d : ℤ) : ℚ :=
  if 365 ≤ d then 0.15
  else if 180 ≤ d then 0.35 + (0.15 - 0.35) * ((d : ℚ) - 180) / (365 - 180)
  else if 90 ≤ d then 0.55 + (0.35 - 0.55) * ((d : ℚ) - 90) / (180 - 90)
  else if 60 ≤ d then 0.7 + (0.55 - 0.7) * ((d : ℚ) - 60) / (90 - 60)
  else if 30 ≤ d then 0.85 + (0.7 - 0.85) * ((d : ℚ) - 30) / (60 - 30)
  else if 14 ≤ d then 0.9 + (0.85 - 0.9) * ((d : ℚ) - 14) / (30 - 14)
  else if 7 ≤ d then 0.95 + (0.9 - 0.95) * ((d : ℚ) - 7) / (14 - 7)
  else 1 + (0.95 - 1) * ((d : ℚ) - 0) / (7 - 0)

lemma timeWeight_eq_spec (d : ℤ) (hd : 0 ≤ d) :
    calculateTimeWeight d = specRecencyWeight d := by
  simp only [calculateTimeWeight, TIME_DECAY_CONFIG, timeWeightAux, specRecencyWeight]
  norm_num
  split_ifs <;> first | omega | ring

lemma timeWeight_bounds (d : ℤ) :
    3/20 ≤ calculateTimeWeight d ∧ calculateTimeWeight d ≤ 1 := by
  simp only [calculateTimeWeight, TIME_DECAY_CONFIG, timeWeightAux]
  norm_num
  split_ifs <;> constructor <;> first | omega | (push_neg at *; try qify at *; linarith)

lemma timeWeight_neg (d : ℤ) (h : d < 0) : calculateTimeWeight d = 1 := by
  simp only [calculateTimeWeight, TIME_DECAY_CONFIG, timeWeightAux]
  split_ifs <;> first | rfl | omega

lemma spec_seg365 (d : ℤ) (h : 365 ≤ d) : specRecencyWeight d = 0.15 := by
  simp only [specRecencyWeight, if_pos h]

lemma spec_seg180 (d : ℤ) (h1 : 180 ≤ d) (h2 : d < 365) :
    specRecencyWeight d = 0.35 + (0.15 - 0.35) * ((d : ℚ) - 180) / (365 - 180) := by
  have hn : ¬ (365 : ℤ) ≤ d := by omega
  simp only [specRecencyWeight, if_neg hn, if_pos h1]

lemma spec_seg90 (d : ℤ) (h1 : 90 ≤ d) (h2 : d < 180) :
    specRecencyWeight d = 0.55 + (0.35 - 0.55) * ((d : ℚ) - 90) / (180 - 90) := by
  have hn1 : ¬ (365 : ℤ) ≤ d := by omega
  have hn2 : ¬ (180 : ℤ) ≤ d := by omega
  simp only [specRecencyWeight, if_neg hn1, if_neg hn2, if_pos h1]

lemma spec_seg60 (d : ℤ) (h1 : 60 ≤ d) (h2 : d < 90) :
    specRecencyWeight d = 0.7 + (0.55 - 0.7) * ((d : ℚ) - 60) / (90 - 60) := by
  have hn1 : ¬ (365 : ℤ) ≤ d := by omega
  have hn2 : ¬ (180 : ℤ) ≤ d := by omega
  have hn3 : ¬ (90 : ℤ) ≤ d := by omega
  simp only [specRecencyWeight, if_neg hn1, if_neg hn2, if_neg hn3, if_pos h1]

lemma spec_seg30 (d : ℤ) (h1 : 30 ≤ d) (h2 : d < 60) :
    specRecencyWeight d = 0.85 + (0.7 - 0.85) * ((d : ℚ) - 30) / (60 - 30) := by
  have hn1 : ¬ (365 : ℤ) ≤ d := by omega
  have hn2 : ¬ (180 : ℤ) ≤ d := by omega
  have hn3 : ¬ (90 : ℤ) ≤ d := by omega
  have hn4 : ¬ (60 : ℤ) ≤ d := by omega
  simp only [specRecencyWeight, if_neg hn1, if_neg hn2, if_neg hn3, if_neg hn4, if_pos h1]

lemma spec_seg14 (d : ℤ) (h1 : 14 ≤ d) (h2 : d < 30) :
    specRecencyWeight d = 0.9 + (0.85 - 0.9) * ((d : ℚ) - 14) / (30 - 14) := by
  have hn1 : ¬ (365 : ℤ) ≤ d := by omega
  have hn2 : ¬ (180 : ℤ) ≤ d := by omega
  have hn3 : ¬ (90 : ℤ) ≤ d := by omega
  have hn4 : ¬ (60 : ℤ) ≤ d := by omega
  have hn5 : ¬ (30 : ℤ) ≤ d := by omega
  simp only [specRecencyWeight, if_neg hn1, if_neg hn2, if_neg hn3, if_neg hn4, if_neg hn5,
    if_pos h1]

lemma spec_seg7 (d : ℤ) (h1 : 7 ≤ d) (h2 : d < 14) :
    specRecencyWeight d = 0.95 + (0.9 - 0.95) * ((d : ℚ) - 7) / (14 - 7) := by
  have hn1 : ¬ (365 : ℤ) ≤ d := by omega
  have hn2 : ¬ (180 : ℤ) ≤ d := by omega
  have hn3 : ¬ (90 : ℤ) ≤ d := by omega
  have hn4 : ¬ (60 : ℤ) ≤ d := by omega
  have hn5 : ¬ (30 : ℤ) ≤ d := by omega
  have hn6 : ¬ (14 : ℤ) ≤ d := by omega
  simp only [specRecencyWeight, if_neg hn1, if_neg hn2, if_neg hn3, if_neg hn4, if_neg hn5,
    if_neg hn6, if_pos h1]

lemma spec_seg0 (d : ℤ) (h2 : d < 7) :
    specRecencyWeight d = 1 + (0.95 - 1) * ((d : ℚ) - 0) / (7 - 0) := by
  have hn1 : ¬ (365 : ℤ) ≤ d := by omega
  have hn2 : ¬ (180 : ℤ) ≤ d := by omega
  have hn3 : ¬ (90 : ℤ) ≤ d := by omega
  have hn4 : ¬ (60 : ℤ) ≤ d := by omega
  have hn5 : ¬ (30 : ℤ) ≤ d := by omega
  have hn6 : ¬ (14 : ℤ) ≤ d := by omega
  have hn7 : ¬ (7 : ℤ) ≤ d := by omega
  simp only [specRecencyWeight, if_neg hn1, if_neg hn2, if_neg hn3, if_neg hn4, if_neg hn5,
    if_neg hn6, if_neg hn7]

lemma timeWeight_step (d : ℤ) : calculateTimeWeight (d + 1) ≤ calculateTimeWeight d := by
  rcases lt_or_le d 0 with h | h
  · rw [timeWeight_neg d h]
    exact (timeWeight_bounds (d + 1)).2
  rw [timeWeight_eq_spec d h, timeWeight_eq_spec (d + 1) (by omega)]
  rcases le_or_lt 365 d with h365 | h365
  · rw [spec_seg365 d h365, spec_seg365 (d + 1) (by omega)]
  rcases le_or_lt 180 d with h180 | h180
  · rcases le_or_lt 364 d with hb | hb
    · have hd : d = 364 := by omega
      subst hd
      rw [spec_seg180 364 (by omega) (by omega), spec_seg365 (364 + 1) (by omega)]
      norm_num
    · rw [spec_seg180 d h180 h365, spec_seg180 (d + 1) (by omega) (by omega)]
      push_cast
      linarith
  rcases le_or_lt 90 d with h90 | h90
  · rcases le_or_lt 179 d with hb | hb
    · have hd : d = 179 := by omega
      subst hd
      rw [spec_seg90 179 (by omega) (by omega), spec_seg180 (179 + 1) (by omega) (by omega)]
      norm_num
    · rw [spec_seg90 d h90 h180, spec_seg90 (d + 1) (by omega) (by omega)]
      push_cast
      linarith
  rcases le_or_lt 60 d with h60 | h60
  · rcases le_or_lt 89 d with hb | hb
    · have hd : d = 89 := by omega
      subst hd
      rw [spec_seg60 89 (by omega) (by omega), spec_seg90 (89 + 1) (by omega) (by omega)]
      norm_num
    · rw [spec_seg60 d h60 h90, spec_seg60 (d + 1) (by omega) (by omega)]
      push_cast
      linarith
  rcases le_or_lt 30 d with h30 | h30
  · rcases le_or_lt 59 d with hb | hb
    · have hd : d = 59 := by omega
      subst hd
      rw [spec_seg30 59 (by omega) (by omega), spec_seg60 (59 + 1) (by omega) (by omega)]
      norm_num
    · rw [spec_seg30 d h30 h60, spec_seg30 (d + 1) (by omega) (by omega)]
      push_cast
      linarith
  rcases le_or_lt 14 d with h14 | h14
  · rcases le_or_lt 29 d with hb | hb
    · have hd : d = 29 := by omega
      subst hd
      rw [spec_seg14 29 (by omega) (by omega), spec_seg30 (29 + 1) (by omega) (by omega)]
      norm_num
    · rw [spec_seg14 d h14 h30, spec_seg14 (d + 1) (by omega) (by omega)]
      push_cast
      linarith
  rcases le_or_lt 7 d with h7 | h7
  · rcases le_or_lt 13 d with hb | hb
    · have hd : d = 13 := by omega
      subst hd
      rw [spec_seg7 13 (by omega) (by omega), spec_seg14 (13 + 1) (by omega) (by omega)]
      norm_num
    · rw [spec_seg7 d h7 h14, spec_seg7 (d + 1) (by omega) (by omega)]
      push_cast
      linarith
  rcases le_or_lt 6 d with hb | hb
  · have hd : d = 6 := by omega
    subst hd
    rw [spec_seg0 6 (by omega), spec_seg7 (6 + 1) (by omega) (by omega)]
    norm_num
  · rw [spec_seg0 d h7, spec_seg0 (d + 1) (by omega)]
    push_cast
    linarith

lemma timeWeight_antitone (d1 d2 : ℤ) (h : d1 ≤ d2) :
    calculateTimeWeight d2 ≤ calculateTimeWeight d1 := by
  refine Int.le_induction (P := fun k => calculateTimeWeight k ≤ calculateTimeWeight d1) ?_ ?_ d2 h
  · exact le_refl _
  · intro n hn ih
    exact le_trans (timeWeight_step n) ih

/-- C5: for every non-negative sale age the decay weight is exactly the
piecewise-linear interpolation through the fixed anchor pairs, clamps to 0.15
beyond 365 days, lies in (0, 1], and is non-increasing in the age. -/
theorem timeWeight_piecewise_spec :
    (∀ d : ℤ, 0 ≤ d → calculateTimeWeight d = specRecencyWeight d)
    ∧ (∀ d : ℤ, 365 < d → calculateTimeWeight d = 0.15)
    ∧ (∀ d : ℤ, 0 < calculateTimeWeight d ∧ calculateTimeWeight d ≤ 1)
    ∧ (∀ d1 d2 : ℤ, d1 ≤ d2 → calculateTimeWeight d2 ≤ calculateTimeWeight d1) := by
  refine ⟨timeWeight_eq_spec, ?_, ?_, timeWeight_antitone⟩
  · intro d hd
    rw [timeWeight_eq_spec d (by omega), spec_seg365 d (by omega)]
  · intro d
    have hb := timeWeight_bounds d
    exact ⟨by linarith [hb.1], hb.2⟩

/-- Witness for C5 at concrete ages 45, 100 and 400 days. -/
theorem timeWeight_piecewise_spec_witness :
    calculateTimeWeight 45 = specRecencyWeight 45
    ∧ calculateTimeWeight 400 = 0.15
    ∧ (0 < calculateTimeWeight 45 ∧ calculateTimeWeight 45 ≤ 1)
    ∧ calculateTimeWeight 100 ≤ calculateTimeWeight 45 :=
  ⟨timeWeight_piecewise_spec.1 45 (by norm_num),
   timeWeight_piecewise_spec.2.1 400 (by norm_num),
   timeWeight_piecewise_spec.2.2.1 45,
   timeWeight_piecewise_spec.2.2.2 45 100 (by norm_num)⟩

-- ============================================
-- SCORING BOUNDS
-- ============================================

lemma jsRound_le_of_le (x : ℚ) (n : ℤ) (h : x ≤ (n : ℚ)) : jsRound x ≤ n := by
  unfold jsRound
  have : ⌊x + 1/2⌋ < n + 1 := Int.floor_lt.mpr (by push_cast; linarith)
  omega

lemma le_jsRound_of_le (x : ℚ) (n : ℤ) (h : (n : ℚ) ≤ x) : n ≤ jsRound x := by
  unfold jsRound
  exact Int.le_floor.mpr (by push_cast; linarith)

lemma jsRound_mono (x y : ℚ) (h : x ≤ y) : jsRound x ≤ jsRound y := by
  unfold jsRound
  exact Int.floor_le_floor (by linarith)

lemma platformPart_bounds (cn : String) (t : AssetMetadata) :
    0 ≤ (platformPart cn t).1 ∧ (platformPart cn t).1 ≤ (platformPart cn t).2
      ∧ 0 ≤ (platformPart cn t).2 := by
  unfold platformPart
  cases h : t.platform with
  | none => norm_num
  | some p =>
    dsimp only
    split_ifs <;> norm_num

lemma conditionPart_bounds (cn cc : String) (t : AssetMetadata) :
    0 ≤ (conditionPart cn cc t).1 ∧ (conditionPart cn cc t).1 ≤ (conditionPart cn cc t).2
      ∧ 0 ≤ (conditionPart cn cc t).2 := by
  unfold conditionPart
  cases h : t.conditionType with
  | none => norm_num
  | some ct =>
    dsimp only
    split_ifs <;> norm_num

lemma gradingPart_bounds (cn cc : String) (t : AssetMetadata) :
    0 ≤ (gradingPart cn cc t).1 ∧ (gradingPart cn cc t).1 ≤ (gradingPart cn cc t).2
      ∧ 0 ≤ (gradingPart cn cc t).2 := by
  unfold gradingPart
  cases h : t.gradingCompany with
  | none => norm_num
  | some gc =>
    cases hg : t.grade with
    | none =>
      dsimp only
      split_ifs <;> norm_num
    | some g =>
      dsimp only
      split_ifs <;> norm_num

lemma regionPart_bounds (cn : String) (t : AssetMetadata) :
    0 ≤ (regionPart cn t).1 ∧ (regionPart cn t).1 ≤ (regionPart cn t).2
      ∧ 0 ≤ (regionPart cn t).2 := by
  unfold regionPart
  cases h : t.region with
  | none => norm_num
  | some r =>
    dsimp only
    split_ifs <;> norm_num

lemma scoreVideoGameAttributes_bounds (comp : MarketComparable) (t : AssetMetadata) :
    0 ≤ scoreVideoGameAttributes comp t ∧ scoreVideoGameAttributes comp t ≤ 1 := by
  unfold scoreVideoGameAttributes
  have h1 := platformPart_bounds (lowerStr comp.name) t
  have h2 := conditionPart_bounds (lowerStr comp.name) (lowerStr (comp.condition.getD "")) t
  have h3 := gradingPart_bounds (lowerStr comp.name) (lowerStr (comp.condition.getD "")) t
  have h4 := regionPart_bounds (lowerStr comp.name) t
  dsimp only
  split_ifs with hf
  · constructor
    · apply div_nonneg (by linarith [h1.1, h2.1, h3.1, h4.1]) (le_of_lt hf)
    · rw [div_le_one hf]
      linarith [h1.2.1, h2.2.1, h3.2.1, h4.2.1]
  · norm_num

lemma scoreNameSimilarity_bounds (a b : String) :
    0 ≤ scoreNameSimilarity a b ∧ scoreNameSimilarity a b ≤ 1 := by
  unfold scoreNameSimilarity
  dsimp only
  split_ifs with h
  · norm_num
  · have hlen : (0 : ℚ) < ((nameWords b).length : ℚ) := by
      have : 0 < (nameWords b).length := Nat.pos_of_ne_zero h
      exact_mod_cast this
    constructor
    · apply div_nonneg _ (le_of_lt hlen)
      apply sum_map_nonneg
      intro x hx
      dsimp only
      split_ifs <;> norm_num
    · rw [div_le_one hlen]
      have hle := sum_map_le_length_mul (nameWords b)
        (fun word =>
          if word ∈ nameWords a then (1 : ℚ)
          else if (nameWords a).any (fun compWord =>
              strIncludes compWord word || strIncludes word compWord) then (1/2 : ℚ)
          else 0) 1
        (fun x hx => by dsimp only; split_ifs <;> norm_num)
      linarith

lemma scoreComparable_similarity_bounds (comp : MarketComparable) (t : AssetMetadata) :
    0 ≤ (scoreComparable comp t).similarityScore
      ∧ (scoreComparable comp t).similarityScore ≤ 100 := by
  have hsim : (scoreComparable comp t).similarityScore
      = jsRound ((scoreNameSimilarity (lowerStr comp.name) (lowerStr t.name) * 40
          + scoreVideoGameAttributes comp t * 60) / (40 + 60) * 100) := rfl
  have h1 := scoreNameSimilarity_bounds (lowerStr comp.name) (lowerStr t.name)
  have h2 := scoreVideoGameAttributes_bounds comp t
  have hq : (scoreNameSimilarity (lowerStr comp.name) (lowerStr t.name) * 40
        + scoreVideoGameAttributes comp t * 60) / (40 + 60) * 100
      = scoreNameSimilarity (lowerStr comp.name) (lowerStr t.name) * 40
        + scoreVideoGameAttributes comp t * 60 := by
    ring
  rw [hsim, hq]
  constructor
  · exact le_jsRound_of_le _ 0 (by push_cast; linarith [h1.1, h2.1])
  · exact jsRound_le_of_le _ 100 (by push_cast; linarith [h1.2, h2.2])

lemma scoreComparable_timeWeight (comp : MarketComparable) (t : AssetMetadata) :
    (scoreComparable comp t).timeWeight = calculateTimeWeight ⌊comp.soldDaysAgo⌋ := rfl

lemma scoreComparable_finalWeight (comp : MarketComparable) (t : AssetMetadata) :
    (scoreComparable comp t).finalWeight
      = ((scoreComparable comp t).similarityScore : ℚ) / 100
          * (scoreComparable comp t).timeWeight := rfl

-- ============================================
-- TOTAL-WEIGHT POSITIVITY (C10)
-- ============================================

/-- C10: every scored comparable surviving the similarity ≥ 20 relevance filter
has `finalWeight ≥ 0.2 × 0.15 = 0.03` (the decay weight never drops below the
last anchor), so the total weight of any non-empty set of such comparables is
strictly positive and the zero-total-weight fallback branches in
`baseWeightedAverage` (unweighted mean) and `calcWeightedAvg` (`none`) are
unreachable within `calculateValuation`. -/
theorem relevant_finalWeight_positive :
    (∀ (comp : MarketComparable) (target : AssetMetadata),
        20 ≤ (scoreComparable comp target).similarityScore →
        3/100 ≤ (scoreComparable comp target).finalWeight)
    ∧ (∀ l : List ScoredComparable, l ≠ [] → (∀ c ∈ l, 3/100 ≤ c.finalWeight) →
        0 < (l.map (fun c => c.finalWeight)).sum
        ∧ baseWeightedAverage l
            = (l.map (fun c => c.adjustedPrice * c.finalWeight)).sum
                / (l.map (fun c => c.finalWeight)).sum
        ∧ calcWeightedAvg l ≠ none) := by
  constructor
  · intro comp target hsim
    rw [scoreComparable_finalWeight, scoreComparable_timeWeight]
    have htw := timeWeight_bounds ⌊comp.soldDaysAgo⌋
    have hsimq : (20 : ℚ) ≤ ((scoreComparable comp target).similarityScore : ℚ) := by
      exact_mod_cast hsim
    have hsim5 : (1/5 : ℚ) ≤ ((scoreComparable comp target).similarityScore : ℚ) / 100 := by
      linarith
    calc (3/100 : ℚ) = (1/5) * (3/20) := by norm_num
      _ ≤ ((scoreComparable comp target).similarityScore : ℚ) / 100
            * calculateTimeWeight ⌊comp.soldDaysAgo⌋ :=
        mul_le_mul hsim5 htw.1 (by norm_num) (by linarith)
  · intro l hne hall
    have hlen : 0 < l.length := List.length_pos.mpr hne
    have hlenq : (0 : ℚ) < (l.length : ℚ) := by exact_mod_cast hlen
    have hsum : (l.length : ℚ) * (3/100) ≤ (l.map (fun c => c.finalWeight)).sum :=
      length_mul_le_sum_map _ _ _ hall
    have hpos : 0 < (l.map (fun c => c.finalWeight)).sum := by nlinarith
    refine ⟨hpos, ?_, ?_⟩
    · simp only [baseWeightedAverage]
      rw [if_pos hpos]
    · simp only [calcWeightedAvg]
      rw [if_neg (by omega : ¬ l.length = 0), if_neg (ne_of_gt hpos)]
      simp

def w10comp : MarketComparable := { name := "mario nes", soldPrice := 40, soldDaysAgo := 3 }

/-- Witness for C10 at a concrete highly-similar comparable. -/
theorem relevant_finalWeight_positive_witness :
    3/100 ≤ (scoreComparable w10comp w2meta).finalWeight
    ∧ (0 < ([scoreComparable w10comp w2meta].map (fun c => c.finalWeight)).sum
       ∧ baseWeightedAverage [scoreComparable w10comp w2meta]
           = ([scoreComparable w10comp w2meta].map
               (fun c => c.adjustedPrice * c.finalWeight)).sum
               / ([scoreComparable w10comp w2meta].map (fun c => c.finalWeight)).sum
       ∧ calcWeightedAvg [scoreComparable w10comp w2meta] ≠ none) :=
  ⟨relevant_finalWeight_positive.1 w10comp w2meta (by decide!),
   relevant_finalWeight_positive.2 [scoreComparable w10comp w2meta]
     (by simp) (by decide!)⟩

-- ============================================
-- CONFIDENCE SCORE FORMULA (C3)
-- ============================================

/-- Two-sided clamp, as the spec words the confidence-score formula. -/
def clampQ (x lo hi : ℚ) : ℚ := max lo (min x hi)

/-- C3: for a non-empty set of pipeline-scored comparables the confidence score
is `round(clamp(min(count·8, 40) + (avgSimilarity/100)·40 + avgTimeWeight·20,
0, 100))` — the unclamped value already lies inside [0, 100], so the clamp is
the identity — and the result is an integer in [0, 100]. -/
theorem confidenceScore_formula (l : List ScoredComparable) (hne : l ≠ [])
    (hsc : ∀ c ∈ l, ∃ comp target, c = scoreComparable comp target) :
    (calculateConfidence l).2
      = jsRound (clampQ
          (min ((l.length : ℚ) * 8) 40
            + (l.map (fun c => (c.similarityScore : ℚ))).sum / (l.length : ℚ) / 100 * 40
            + (l.map (fun c => c.timeWeight)).sum / (l.length : ℚ) * 20) 0 100)
    ∧ 0 ≤ (calculateConfidence l).2 ∧ (calculateConfidence l).2 ≤ 100 := by
  have hlen : 0 < l.length := List.length_pos.mpr hne
  have hn : (0 : ℚ) < (l.length : ℚ) := by exact_mod_cast hlen
  have hsim0 : ∀ c ∈ l, (0 : ℚ) ≤ (c.similarityScore : ℚ) := by
    intro c hc
    obtain ⟨comp, target, rfl⟩ := hsc c hc
    exact_mod_cast (scoreComparable_similarity_bounds comp target).1
  have hsim100 : ∀ c ∈ l, (c.similarityScore : ℚ) ≤ 100 := by
    intro c hc
    obtain ⟨comp, target, rfl⟩ := hsc c hc
    exact_mod_cast (scoreComparable_similarity_bounds comp target).2
  have htw0 : ∀ c ∈ l, (0 : ℚ) ≤ c.timeWeight := by
    intro c hc
    obtain ⟨comp, target, rfl⟩ := hsc c hc
    rw [scoreComparable_timeWeight]
    linarith [(timeWeight_bounds ⌊comp.soldDaysAgo⌋).1]
  have htw1 : ∀ c ∈ l, c.timeWeight ≤ 1 := by
    intro c hc
    obtain ⟨comp, target, rfl⟩ := hsc c hc
    rw [scoreComparable_timeWeight]
    exact (timeWeight_bounds ⌊comp.soldDaysAgo⌋).2
  have hA0 : (0 : ℚ) ≤ (l.map (fun c => (c.similarityScore : ℚ))).sum :=
    sum_map_nonneg _ _ hsim0
  have hA100 : (l.map (fun c => (c.similarityScore : ℚ))).sum ≤ (l.length : ℚ) * 100 :=
    sum_map_le_length_mul _ _ _ hsim100
  have hB0 : (0 : ℚ) ≤ (l.map (fun c => c.timeWeight)).sum :=
    sum_map_nonneg _ _ htw0
  have hB1 : (l.map (fun c => c.timeWeight)).sum ≤ (l.length : ℚ) * 1 :=
    sum_map_le_length_mul _ _ _ htw1
  have havgS0 : (0 : ℚ) ≤ (l.map (fun c => (c.similarityScore : ℚ))).sum / (l.length : ℚ) :=
    div_nonneg hA0 (le_of_lt hn)
  have havgS100 : (l.map (fun c => (c.similarityScore : ℚ))).sum / (l.length : ℚ) ≤ 100 := by
    rw [div_le_iff hn]
    linarith
  have havgT0 : (0 : ℚ) ≤ (l.map (fun c => c.timeWeight)).sum / (l.length : ℚ) :=
    div_nonneg hB0 (le_of_lt hn)
  have havgT1 : (l.map (fun c => c.timeWeight)).sum / (l.length : ℚ) ≤ 1 := by
    rw [div_le_iff hn]
    linarith
  have hmin0 : (0 : ℚ) ≤ min ((l.length : ℚ) * 8) 40 :=
    le_min (by positivity) (by norm_num)
  have hmin40 : min ((l.length : ℚ) * 8) 40 ≤ 40 := min_le_right _ _
  have hraw0 : (0 : ℚ)
      ≤ min ((l.length : ℚ) * 8) 40
        + (l.map (fun c => (c.similarityScore : ℚ))).sum / (l.length : ℚ) / 100 * 40
        + (l.map (fun c => c.timeWeight)).sum / (l.length : ℚ) * 20 := by
    have : (0 : ℚ) ≤ (l.map (fun c => (c.similarityScore : ℚ))).sum / (l.length : ℚ) / 100 * 40 := by
      positivity
    nlinarith
  have hraw100 : min ((l.length : ℚ) * 8) 40
        + (l.map (fun c => (c.similarityScore : ℚ))).sum / (l.length : ℚ) / 100 * 40
        + (l.map (fun c => c.timeWeight)).sum / (l.length : ℚ) * 20 ≤ 100 := by
    nlinarith
  have hclamp : clampQ
      (min ((l.length : ℚ) * 8) 40
        + (l.map (fun c => (c.similarityScore : ℚ))).sum / (l.length : ℚ) / 100 * 40
        + (l.map (fun c => c.timeWeight)).sum / (l.length : ℚ) * 20) 0 100
      = min ((l.length : ℚ) * 8) 40
        + (l.map (fun c => (c.similarityScore : ℚ))).sum / (l.length : ℚ) / 100 * 40
        + (l.map (fun c => c.timeWeight)).sum / (l.length : ℚ) * 20 := by
    unfold clampQ
    rw [min_eq_left hraw100, max_eq_right hraw0]
  have heq : (calculateConfidence l).2
      = jsRound (min ((l.length : ℚ) * 8) 40
          + (l.map (fun c => (c.similarityScore : ℚ))).sum / (l.length : ℚ) / 100 * 40
          + (l.map (fun c => c.timeWeight)).sum / (l.length : ℚ) * 20) := by
    simp only [calculateConfidence]
  refine ⟨by rw [hclamp, heq], ?_, ?_⟩
  · rw [heq]
    exact le_jsRound_of_le _ 0 (by push_cast; linarith)
  · rw [heq]
    exact jsRound_le_of_le _ 100 (by push_cast; linarith)

/-- Witness for C3 at a concrete singleton list of a scored comparable. -/
theorem confidenceScore_formula_witness :
    (calculateConfidence [scoreComparable w10comp w2meta]).2
      = jsRound (clampQ
          (min (([scoreComparable w10comp w2meta].length : ℚ) * 8) 40
            + ([scoreComparable w10comp w2meta].map
                (fun c => (c.similarityScore : ℚ))).sum
                / ([scoreComparable w10comp w2meta].length : ℚ) / 100 * 40
            + ([scoreComparable w10comp w2meta].map (fun c => c.timeWeight)).sum
                / ([scoreComparable w10comp w2meta].length : ℚ) * 20) 0 100)
    ∧ 0 ≤ (calculateConfidence [scoreComparable w10comp w2meta]).2
    ∧ (calculateConfidence [scoreComparable w10comp w2meta]).2 ≤ 100 :=
  confidenceScore_formula [scoreComparable w10comp w2meta] (by simp)
    (by
      intro c hc
      simp only [List.mem_singleton] at hc
      exact ⟨w10comp, w2meta, hc⟩)

-- ============================================
-- PRICE RANGE (C6)
-- ============================================

lemma sorted_pairwise_of_mergeSort (xs : List ℚ) :
    List.Pairwise (fun a b : ℚ => a ≤ b) (xs.mergeSort (fun a b => a ≤ b)) := by
  have h := @List.sorted_mergeSort ℚ (fun a b : ℚ => decide (a ≤ b))
    (fun a b c hab hbc => by
      simp only [decide_eq_true_eq] at *
      exact le_trans hab hbc)
    (fun a b => by simpa using le_total a b)
    xs
  exact h.imp (fun hab => by simpa using hab)

lemma percentile_mono_in_p (arr : List ℚ) (hne : arr ≠ [])
    (hsorted : List.Pairwise (fun a b : ℚ => a ≤ b) arr) (p q : ℚ) (hpq : p ≤ q) :
    percentile arr p ≤ percentile arr q := by
  unfold percentile
  dsimp only
  have hn : 0 < arr.length := List.length_pos.mpr hne
  have hc : ⌈p / 100 * (arr.length : ℚ)⌉ ≤ ⌈q / 100 * (arr.length : ℚ)⌉ := by
    apply Int.ceil_le_ceil
    have h1 : p / 100 ≤ q / 100 := by linarith
    have h2 : (0 : ℚ) ≤ (arr.length : ℚ) := by positivity
    exact mul_le_mul_of_nonneg_right h1 h2
  set a := ⌈p / 100 * (arr.length : ℚ)⌉ - 1 with ha
  set b := ⌈q / 100 * (arr.length : ℚ)⌉ - 1 with hb
  have hij : (max 0 (min a ((arr.length : ℤ) - 1))).toNat
      ≤ (max 0 (min b ((arr.length : ℤ) - 1))).toNat := by omega
  have hi_lt : (max 0 (min a ((arr.length : ℤ) - 1))).toNat < arr.length := by omega
  have hj_lt : (max 0 (min b ((arr.length : ℤ) - 1))).toNat < arr.length := by omega
  rw [List.getD_eq_getElem arr 0 hi_lt, List.getD_eq_getElem arr 0 hj_lt]
  rcases Nat.eq_or_lt_of_le hij with heq | hlt
  · exact le_of_eq (by congr 1)
  · have hpw := List.pairwise_iff_get.mp hsorted ⟨_, hi_lt⟩ ⟨_, hj_lt⟩ hlt
    simpa using hpw

/-- C6: the price range takes the 25th/50th/75th percentiles of the
ascending-sorted post-filter prices by nearest-rank selection at index
`clamp(⌈p/100·n⌉ − 1, 0, n − 1)`, each rounded, and consequently
`low ≤ median ≤ high` for every non-empty input. -/
theorem priceRange_percentile_ordered (l : List ScoredComparable) (hne : l ≠ []) :
    (calculatePriceRange l).low
      = jsRound (percentile ((l.map (fun c => c.adjustedPrice)).mergeSort (fun a b => a ≤ b)) 25)
    ∧ (calculatePriceRange l).median
      = jsRound (percentile ((l.map (fun c => c.adjustedPrice)).mergeSort (fun a b => a ≤ b)) 50)
    ∧ (calculatePriceRange l).high
      = jsRound (percentile ((l.map (fun c => c.adjustedPrice)).mergeSort (fun a b => a ≤ b)) 75)
    ∧ (∀ (arr : List ℚ) (p : ℚ), percentile arr p
        = arr.getD (max 0 (min (⌈p / 100 * (arr.length : ℚ)⌉ - 1) ((arr.length : ℤ) - 1))).toNat 0)
    ∧ (calculatePriceRange l).low ≤ (calculatePriceRange l).median
    ∧ (calculatePriceRange l).median ≤ (calculatePriceRange l).high := by
  have hlen : ((l.map (fun c => c.adjustedPrice)).mergeSort (fun a b => a ≤ b)).length
      = l.length := by
    rw [List.length_mergeSort, List.length_map]
  have hsne : (l.map (fun c => c.adjustedPrice)).mergeSort (fun a b => a ≤ b) ≠ [] := by
    apply List.ne_nil_of_length_pos
    rw [hlen]
    exact List.length_pos.mpr hne
  have hsorted := sorted_pairwise_of_mergeSort (l.map (fun c => c.adjustedPrice))
  refine ⟨rfl, rfl, rfl, fun arr p => rfl, ?_, ?_⟩
  · exact jsRound_mono _ _
      (percentile_mono_in_p _ hsne hsorted 25 50 (by norm_num))
  · exact jsRound_mono _ _
      (percentile_mono_in_p _ hsne hsorted 50 75 (by norm_num))

/-- Witness for C6 at a concrete two-element list. -/
theorem priceRange_percentile_ordered_witness :
    (calculatePriceRange [w9a, w9b]).low
      = jsRound (percentile (([w9a, w9b].map (fun c => c.adjustedPrice)).mergeSort
          (fun a b => a ≤ b)) 25)
    ∧ (calculatePriceRange [w9a, w9b]).median
      = jsRound (percentile (([w9a, w9b].map (fun c => c.adjustedPrice)).mergeSort
          (fun a b => a ≤ b)) 50)
    ∧ (calculatePriceRange [w9a, w9b]).high
      = jsRound (percentile (([w9a, w9b].map (fun c => c.adjustedPrice)).mergeSort
          (fun a b => a ≤ b)) 75)
    ∧ (∀ (arr : List ℚ) (p : ℚ), percentile arr p
        = arr.getD (max 0 (min (⌈p / 100 * (arr.length : ℚ)⌉ - 1) ((arr.length : ℤ) - 1))).toNat 0)
    ∧ (calculatePriceRange [w9a, w9b]).low ≤ (calculatePriceRange [w9a, w9b]).median
    ∧ (calculatePriceRange [w9a, w9b]).median ≤ (calculatePriceRange [w9a, w9b]).high :=
  priceRange_percentile_ordered [w9a, w9b] (by simp)

-- ============================================
-- GRADE ADJUSTMENT (C7)
-- ============================================

lemma getGradeMultiplier_base : getGradeMultiplier (17/2) = 1.1 := by decide!

lemma getGradeMultiplier_floor (g : ℚ) (h : g < 5) : getGradeMultiplier g = 0.3 := by
  have e1 : decide ((10 : ℚ) ≤ g) = false := decide_eq_false (by linarith)
  have e2 : decide ((9.8 : ℚ) ≤ g) = false := decide_eq_false (by linarith)
  have e3 : decide ((9.6 : ℚ) ≤ g) = false := decide_eq_false (by linarith)
  have e4 : decide ((9.4 : ℚ) ≤ g) = false := decide_eq_false (by linarith)
  have e5 : decide ((9.2 : ℚ) ≤ g) = false := decide_eq_false (by linarith)
  have e6 : decide ((9 : ℚ) ≤ g) = false := decide_eq_false (by linarith)
  have e7 : decide ((8.5 : ℚ) ≤ g) = false := decide_eq_false (by linarith)
  have e8 : decide ((8 : ℚ) ≤ g) = false := decide_eq_false (by linarith)
  have e9 : decide ((7.5 : ℚ) ≤ g) = false := decide_eq_false (by linarith)
  have e10 : decide ((7 : ℚ) ≤ g) = false := decide_eq_false (by linarith)
  have e11 : decide ((6 : ℚ) ≤ g) = false := decide_eq_false (by linarith)
  have e12 : decide ((5 : ℚ) ≤ g) = false := decide_eq_false (by linarith)
  simp [getGradeMultiplier, GRADE_MULTIPLIERS, List.find?, e1, e2, e3, e4, e5, e6, e7, e8,
    e9, e10, e11, e12]

/-- C7: for a graded, non-raw target the weighted average is the base weighted
average times `multiplier(grade)/multiplier(8.5)`, the multiplier lookup clamps
to the floor multiplier 0.3 below the lowest threshold, the baseline
`multiplier(8.5)` is 1.1, and a `grade` adjustment entry is recorded exactly
when the factor differs from 1. -/
theorem gradeAdjustment_factor (l : List ScoredComparable) (m : AssetMetadata)
    (g : ℚ) (gc : String) (hg : m.grade = some g) (hgc : m.gradingCompany = some gc)
    (hraw : gc ≠ "raw") (hne : gc ≠ "") :
    (calculateWeightedAverage l m).1
      = baseWeightedAverage l * (getGradeMultiplier g / getGradeMultiplier (17/2))
    ∧ ((calculateWeightedAverage l m).2
        = [{ type := "grade", factor := getGradeMultiplier g / getGradeMultiplier (17/2),
             reason := s!"Adjusted for {gc} {gradeString g} grade" }]
      ↔ getGradeMultiplier g / getGradeMultiplier (17/2) ≠ 1)
    ∧ ((calculateWeightedAverage l m).2 = []
      ↔ getGradeMultiplier g / getGradeMultiplier (17/2) = 1)
    ∧ (g < 5 → getGradeMultiplier g = 0.3)
    ∧ getGradeMultiplier (17/2) = 1.1 := by
  have hb : getGradeMultiplier (17/2) = 1.1 := getGradeMultiplier_base
  have hbne : getGradeMultiplier (17/2) ≠ 0 := by
    rw [hb]
    norm_num
  have hfac : getGradeMultiplier g / getGradeMultiplier (17/2) = 1
      ↔ getGradeMultiplier g = getGradeMultiplier (17/2) := by
    rw [div_eq_one_iff_eq hbne]
  simp only [calculateWeightedAverage, hg, hgc]
  rw [if_pos ⟨hne, hraw⟩]
  by_cases hmul : getGradeMultiplier g ≠ getGradeMultiplier (17/2)
  · rw [if_pos hmul]
    have hfne : getGradeMultiplier g / getGradeMultiplier (17/2) ≠ 1 := by
      rw [ne_eq, hfac]
      exact hmul
    exact ⟨rfl, iff_of_true rfl hfne, iff_of_false (by simp) hfne,
      fun hlt => getGradeMultiplier_floor g hlt, hb⟩
  · push_neg at hmul
    rw [if_neg (by simpa using hmul)]
    have hfone : getGradeMultiplier g / getGradeMultiplier (17/2) = 1 := hfac.mpr hmul
    refine ⟨?_, ?_, ?_, fun hlt => getGradeMultiplier_floor g hlt, hb⟩
    · show baseWeightedAverage l
        = baseWeightedAverage l * (getGradeMultiplier g / getGradeMultiplier (17/2))
      rw [hfone, mul_one]
    · exact iff_of_false (by simp) (fun hcon => hcon hfone)
    · exact iff_of_true rfl hfone

def w7gc : String := "wata"

def w7grade : ℚ := 9.8

def w7meta : AssetMetadata :=
  { name := "mario nes", gradingCompany := some w7gc, grade := some w7grade }

/-- Witness for C7 at a WATA 9.8 graded target over a singleton list. -/
theorem gradeAdjustment_factor_witness :
    (calculateWeightedAverage [w9a] w7meta).1
      = baseWeightedAverage [w9a] * (getGradeMultiplier w7grade / getGradeMultiplier (17/2))
    ∧ ((calculateWeightedAverage [w9a] w7meta).2
        = [{ type := "grade", factor := getGradeMultiplier w7grade / getGradeMultiplier (17/2),
             reason := s!"Adjusted for {w7gc} {gradeString w7grade} grade" }]
      ↔ getGradeMultiplier w7grade / getGradeMultiplier (17/2) ≠ 1)
    ∧ ((calculateWeightedAverage [w9a] w7meta).2 = []
      ↔ getGradeMultiplier w7grade / getGradeMultiplier (17/2) = 1)
    ∧ (w7grade < 5 → getGradeMultiplier w7grade = 0.3)
    ∧ getGradeMultiplier (17/2) = 1.1 :=
  gradeAdjustment_factor [w9a] w7meta w7grade w7gc rfl rfl (by decide) (by decide)

-- ============================================
-- CONDITION ISOLATION (C4)
-- ============================================

def looseMeta : AssetMetadata :=
  { name := "mario brand new", conditionType := some CondType.loose }

def brandNewComp : MarketComparable :=
  { name := "mario brand new", soldPrice := 50, soldDaysAgo := 0 }

/-- C4 counterexample: `brandNewComp` carries the sealed keywords `new` and
`brand new` in its name (and no loose keyword, no condition label), yet the
loose-target condition filter keeps it — the name-path exclusion only fires on
`sealed`/`factory new` — so `calculateValuation` returns a populated result
instead of `EMPTY_RESULT`. -/
theorem sealedName_loose_not_empty :
    includesAny (lowerStr brandNewComp.name) (conditionKeywords CondType.sealed) = true
    ∧ includesAny (lowerStr brandNewComp.name) (conditionKeywords CondType.loose) = false
    ∧ brandNewComp.condition = none
    ∧ keepForCondition CondType.loose brandNewComp = true
    ∧ calculateValuation looseMeta [brandNewComp]
        ≠ createEmptyResult "No LOOSE condition sales found"
    ∧ (calculateValuation looseMeta [brandNewComp]).comparablesUsed = 1
    ∧ (calculateValuation looseMeta [brandNewComp]).estimatedValue = 50 := by decide!

/-- The comparable signals `sealed` in a way the loose-target filter's
exclusion rules recognise: either its condition label is non-empty, contains
`sealed` or `new` and no loose condition keyword, or its condition label is
empty and its name contains `sealed` and no loose name keyword. -/
def SealedSignalled (comp : MarketComparable) : Prop :=
  (lowerStr (comp.condition.getD "") ≠ ""
    ∧ (strIncludes (lowerStr (comp.condition.getD "")) "sealed" = true
        ∨ strIncludes (lowerStr (comp.condition.getD "")) "new" = true)
    ∧ includesAny (lowerStr (comp.condition.getD "")) (conditionFieldMatch CondType.loose) = false)
  ∨ (lowerStr (comp.condition.getD "") = ""
    ∧ strIncludes (lowerStr comp.name) "sealed" = true
    ∧ includesAny (lowerStr comp.name) (conditionKeywords CondType.loose) = false)

instance sealedSignalledDecidable (comp : MarketComparable) : Decidable (SealedSignalled comp) := by
  unfold SealedSignalled
  infer_instance

lemma keep_false_of_sealedSignalled (comp : MarketComparable) (h : SealedSignalled comp) :
    keepForCondition CondType.loose comp = false := by
  simp only [keepForCondition]
  rcases h with ⟨hcne, hsn, hnokw⟩ | ⟨hceq, hsealed, hnokw⟩
  · rw [if_pos hcne, if_neg (by simp [hnokw]),
      if_pos ⟨by decide, by rcases hsn with h1 | h1 <;> [exact Or.inl h1; exact Or.inr h1]⟩]
  · rw [if_neg (by simp [hceq])]
    simp only [keepByName]
    rw [if_neg (by simp [hnokw]), if_pos ⟨by decide, Or.inl hsealed⟩]

/-- C4 amended: when every comparable signals `sealed` through one of the
filter's recognised exclusion channels (`sealed`/`new` in a non-empty condition
label with no loose condition keyword, or `sealed` in the name with no loose
name keyword), a loose-bucket target yields exactly the terminal
`EMPTY_RESULT` for the condition filter. -/
theorem sealedOnly_loose_returns_empty (m : AssetMetadata)
    (hm : m.conditionType = some CondType.loose)
    (comps : List MarketComparable) (hne : comps ≠ [])
    (hall : ∀ comp ∈ comps, SealedSignalled comp) :
    calculateValuation m comps = createEmptyResult "No LOOSE condition sales found" := by
  have hfilter : filterByConditionType comps m.conditionType = [] := by
    rw [hm]
    simp only [filterByConditionType]
    apply List.filter_eq_nil_iff.mpr
    intro a ha
    rw [keep_false_of_sealedSignalled a (hall a ha)]
    simp
  have hl1 : ¬ comps.length = 0 := fun h => hne (List.length_eq_zero.mp h)
  have hl2 : (filterByConditionType comps m.conditionType).length = 0 := by
    rw [hfilter]
    rfl
  have hlab : (s!"No {condLabel m} condition sales found")
      = "No LOOSE condition sales found" := by
    have hcl : condLabel m = "LOOSE" := by
      simp only [condLabel, hm]
      decide!
    rw [hcl]
    decide!
  simp only [calculateValuation, if_neg hl1, if_pos hl2, hlab]

def sealedComp1 : MarketComparable :=
  { name := "zelda factory sealed", soldPrice := 99, soldDaysAgo := 1 }

def sealedComp2 : MarketComparable :=
  { name := "zelda", soldPrice := 80, soldDaysAgo := 2, condition := some "New/Sealed" }

/-- Witness for the amended C4 at two concrete sealed-labelled comparables. -/
theorem sealedOnly_loose_returns_empty_witness :
    calculateValuation looseMeta [sealedComp1, sealedComp2]
      = createEmptyResult "No LOOSE condition sales found" :=
  sealedOnly_loose_returns_empty looseMeta rfl [sealedComp1, sealedComp2]
    (by simp) (by decide!)

-- ============================================
-- OUTLIER INVARIANCE (C1)
-- ============================================

def c1meta : AssetMetadata := { name := "mario" }

def c1cmp : MarketComparable := { name := "mario", soldPrice := 10, soldDaysAgo := 0 }

def c1spike : MarketComparable := { name := "mario", soldPrice := 1000, soldDaysAgo := 0 }

/-- C1 counterexample at exactly four equal-priced comparables: the appended
comparable priced at 100× the cluster median (1000 = 100 × 10) sits exactly on
the `mean + 2·stddev` boundary (z = √4 = 2) and the inclusive filter keeps it,
so `removeOutliers` removes nothing and the point estimate jumps from 10 to
208. -/
theorem outlierAt4_not_excluded :
    (∀ c ∈ relevantComparables c1meta [c1cmp, c1cmp, c1cmp, c1cmp], c.adjustedPrice = 10)
    ∧ (relevantComparables c1meta [c1cmp, c1cmp, c1cmp, c1cmp]).length = 4
    ∧ removeOutliers (relevantComparables c1meta [c1cmp, c1cmp, c1cmp, c1cmp, c1spike])
        = relevantComparables c1meta [c1cmp, c1cmp, c1cmp, c1cmp, c1spike]
    ∧ (calculateValuation c1meta [c1cmp, c1cmp, c1cmp, c1cmp]).estimatedValue = 10
    ∧ (calculateValuation c1meta [c1cmp, c1cmp, c1cmp, c1cmp, c1spike]).estimatedValue
        = 208 := by decide!

/-- C1 amended: with at least 5 equal-priced positive comparables the appended
100×-priced comparable lies strictly outside `mean ± 2·stddev` (its z-score is
√n > 2) and is excluded, while the cluster itself survives unchanged, so every
downstream weighted average — hence the rounded point estimate — is computed
from the original cluster. -/
theorem outlierInvariance_five_plus (p : ℚ) (hp : 0 < p) (l : List ScoredComparable)
    (h5 : 5 ≤ l.length) (hall : ∀ c ∈ l, c.adjustedPrice = p)
    (out : ScoredComparable) (hout : out.adjustedPrice = 100 * p) :
    removeOutliers (l ++ [out]) = l
    ∧ removeOutliers l = l
    ∧ ∀ m : AssetMetadata,
        jsRound (calculateWeightedAverage (removeOutliers (l ++ [out])) m).1
          = jsRound (calculateWeightedAverage (removeOutliers l) m).1 := by
  have hq5 : (5 : ℚ) ≤ (l.length : ℚ) := by exact_mod_cast h5
  have hd : (0 : ℚ) < (l.length : ℚ) + 1 := by linarith
  have hdq : (0 : ℚ) < (l.length : ℚ) := by linarith
  have hB : removeOutliers l = l := by
    have hlen : ¬ l.length < 4 := by omega
    rw [removeOutliers_of_long l hlen]
    apply List.filter_eq_self.mpr
    intro a ha
    simp only [decide_eq_true_eq]
    have hmean : meanPrice l = p := by
      simp only [meanPrice]
      rw [sum_map_const_of l _ p hall, List.length_map]
      field_simp
    rw [hmean, hall a ha]
    have hv := variancePrice_nonneg l
    nlinarith
  have hsum : ((l ++ [out]).map (fun c => c.adjustedPrice)).sum
      = (l.length : ℚ) * p + 100 * p := by
    rw [List.map_append, List.sum_append, sum_map_const_of l _ p hall]
    simp [hout]
  have hlen3 : ((((l ++ [out]).map (fun c => c.adjustedPrice)).length : ℕ) : ℚ)
      = (l.length : ℚ) + 1 := by
    rw [List.length_map, List.length_append]
    simp only [List.length_cons, List.length_nil]
    push_cast
    ring
  have hmean : meanPrice (l ++ [out])
      = ((l.length : ℚ) * p + 100 * p) / ((l.length : ℚ) + 1) := by
    simp only [meanPrice]
    rw [hsum, hlen3]
  have hdev1 : p - meanPrice (l ++ [out]) = -99 * p / ((l.length : ℚ) + 1) := by
    rw [hmean]
    field_simp
    ring
  have hdev2 : 100 * p - meanPrice (l ++ [out])
      = 99 * (l.length : ℚ) * p / ((l.length : ℚ) + 1) := by
    rw [hmean]
    field_simp
    ring
  have hlen4 : (((l ++ [out]).length : ℕ) : ℚ) = (l.length : ℚ) + 1 := by
    rw [List.length_append]
    simp only [List.length_cons, List.length_nil]
    push_cast
    ring
  have hvar : variancePrice (l ++ [out])
      = (99 * p) ^ 2 * (l.length : ℚ) / ((l.length : ℚ) + 1) ^ 2 := by
    rw [variancePrice_eq, List.map_append, List.sum_append,
      sum_map_const_of l _ ((p - meanPrice (l ++ [out])) ^ 2) (fun c hc => by rw [hall c hc])]
    simp only [List.map_cons, List.map_nil, List.sum_cons, List.sum_nil]
    rw [hout, hdev1, hdev2, hlen4]
    field_simp
    ring
  have hA : removeOutliers (l ++ [out]) = l := by
    have hlen2 : ¬ (l ++ [out]).length < 4 := by
      rw [List.length_append]
      simp only [List.length_cons, List.length_nil]
      omega
    rw [removeOutliers_of_long _ hlen2, List.filter_append]
    have hkeep : l.filter (fun c =>
        (c.adjustedPrice - meanPrice (l ++ [out])) ^ 2 ≤ 4 * variancePrice (l ++ [out])) = l := by
      apply List.filter_eq_self.mpr
      intro a ha
      simp only [decide_eq_true_eq]
      rw [hall a ha, hdev1, hvar]
      have key : (-99 * p / ((l.length : ℚ) + 1)) ^ 2
          = (99 * p) ^ 2 / ((l.length : ℚ) + 1) ^ 2 := by
        rw [div_pow]
        congr 1
        ring
      have key2 : 4 * ((99 * p) ^ 2 * (l.length : ℚ) / ((l.length : ℚ) + 1) ^ 2)
          = 4 * (99 * p) ^ 2 * (l.length : ℚ) / ((l.length : ℚ) + 1) ^ 2 := by
        ring
      rw [key, key2, div_le_div_iff (by positivity) (by positivity)]
      nlinarith [mul_nonneg (mul_nonneg (sq_nonneg (99 * p)) (sq_nonneg ((l.length : ℚ) + 1)))
        (by linarith : (0 : ℚ) ≤ 4 * (l.length : ℚ) - 1)]
    have hdrop : [out].filter (fun c =>
        (c.adjustedPrice - meanPrice (l ++ [out])) ^ 2 ≤ 4 * variancePrice (l ++ [out])) = [] := by
      simp only [List.filter_cons, List.filter_nil]
      rw [if_neg]
      simp only [decide_eq_true_eq]
      push_neg
      rw [hout, hdev2, hvar]
      have key : (99 * (l.length : ℚ) * p / ((l.length : ℚ) + 1)) ^ 2
          = (99 * p) ^ 2 * (l.length : ℚ) ^ 2 / ((l.length : ℚ) + 1) ^ 2 := by
        rw [div_pow]
        congr 1
        ring
      have key2 : 4 * ((99 * p) ^ 2 * (l.length : ℚ) / ((l.length : ℚ) + 1) ^ 2)
          = 4 * (99 * p) ^ 2 * (l.length : ℚ) / ((l.length : ℚ) + 1) ^ 2 := by
        ring
      rw [key, key2, div_lt_div_iff (by positivity) (by positivity)]
      have h99 : (0 : ℚ) < (99 * p) ^ 2 := by positivity
      nlinarith [mul_pos (mul_pos h99 (by positivity : (0 : ℚ) < ((l.length : ℚ) + 1) ^ 2))
        (by nlinarith : (0 : ℚ) < (l.length : ℚ) ^ 2 - 4 * (l.length : ℚ))]
    rw [hkeep, hdrop, List.append_nil]
  exact ⟨hA, hB, fun m => by rw [hA, hB]⟩

def w1out : ScoredComparable :=
  { name := "game spike", soldPrice := 1000, soldDaysAgo := 0,
    similarityScore := 70, timeWeight := 1, finalWeight := 0.7, adjustedPrice := 1000 }

/-- Witness for the amended C1 at five comparables priced 10 plus one at 1000,
with the weighted-average conclusion instantiated at a concrete target. -/
theorem outlierInvariance_five_plus_witness :
    removeOutliers (List.replicate 5 w9a ++ [w1out]) = List.replicate 5 w9a
    ∧ removeOutliers (List.replicate 5 w9a) = List.replicate 5 w9a
    ∧ jsRound (calculateWeightedAverage
          (removeOutliers (List.replicate 5 w9a ++ [w1out])) c1meta).1
        = jsRound (calculateWeightedAverage
          (removeOutliers (List.replicate 5 w9a)) c1meta).1 :=
  have h := outlierInvariance_five_plus 10 (by norm_num) (List.replicate 5 w9a)
    (by simp) (by decide!) w1out (by decide!)
  ⟨h.1, h.2.1, h.2.2 c1meta⟩
